import Mathlib

/-!
# Verification of the nOS v0.1 synchronization layer (sem.c, flag.c)

Shallow embedding of the counting-semaphore and event-flag operations of
nOS v0.1 (`src/source/sem.c`, `src/source/flag.c`), together with the parts
of the Event-base contract those files consume (`nOS_EventSignal`,
`nOS_EventWait`, `nOS_ListWalk`), which are external collaborators whose
code is not part of the given sources and are therefore modelled from the
specification's contract (section 6 of the design document).

Machine integers: `count`/`max` are `uint16_t` and `flags` is
`unsigned int` in the C source.  Every arithmetic step the code performs on
them is guarded so that no wrap-around can occur (`count++` only under
`count < max`, `count--` only under `count > 0`, and the bitwise operations
`&`, `|`, `^`, `& ~` never produce a value wider than their operands), so
they are embedded as `Nat` without an explicit modulus.
-/

/-- Status codes returned by the nOS API (identifiers from the source;
their numeric values live in the header `nOS.h`, which is not among the
given sources — only their distinctness matters here, so they are an
inductive type).  `NOS_E_FULL` is the code `nOS_FlagCreate` actually
returns for a null pointer. -/
inductive NOSErr where
  | NOS_OK
  | NOS_E_NULL
  | NOS_E_INV_VAL
  | NOS_E_ISR
  | NOS_E_LOCKED
  | NOS_E_IDLE
  | NOS_E_AGAIN
  | NOS_E_TIMEOUT
  | NOS_E_OVERFLOW
  | NOS_E_FULL
  deriving DecidableEq, Repr

open NOSErr

/-- Scheduler state of a thread as read by `nOS_SemGive`
(`thread->state == NOS_READY`).  Modelled from the spec: the thread
control block's state field belongs to the external scheduler collaborator;
a woken thread is normally `ready` but may be otherwise suspended. -/
inductive ThreadState where
  | ready
  | waiting
  | suspended
  deriving DecidableEq, Repr

/-- A thread as seen by this subsystem: its priority (`thread->prio`) and
the scheduler state it has once signalled (`thread->state`).  Modelled from
the spec: the thread control block is an external collaborator; only these
two fields are read by the given sources. -/
structure nOS_Thread where
  pri : Nat
  state : ThreadState
  deriving DecidableEq, Repr

/-- Execution context read through the scheduler collaborator's globals:
`nOS_isrNestingCounter`, `nOS_lockNestingCounter`, whether
`nOS_runningThread == &nOS_mainThread` (the idle thread), and the running
thread's priority `nOS_runningThread->prio`. -/
structure ExecCtx where
  isrNesting : Nat
  lockNesting : Nat
  runningIsIdle : Bool
  runningPri : Nat
  deriving DecidableEq, Repr

/-- The `nOS_Sem` object: `count`, `max` (both `uint16_t`) and the wait
list of the embedded `nOS_Event` base. -/
structure nOS_Sem where
  count : Nat
  max : Nat
  waiting : List nOS_Thread
  deriving DecidableEq, Repr

/-- Modelled from the spec: `nOS_EventSignal` (Event base, not among the
given sources) "atomically dequeue and ready the single highest-priority
waiting thread, or report none are waiting".  Returns the dequeued thread
(earliest of maximal priority) and the remaining wait list. -/
def nOS_EventSignal : List nOS_Thread → Option nOS_Thread × List nOS_Thread
  | [] => (none, [])
  | t :: ts =>
    match nOS_EventSignal ts with
    | (none, _) => (some t, ts)
    | (some u, rest) =>
      if t.pri < u.pri then (some u, t :: rest) else (some t, ts)

/-- Embedding of `nOS_SemCreate` (sem.c lines 17-40).  The null pointer is modelled by
the `semIsNull` flag; on success the created object is returned. -/
def nOS_SemCreate (semIsNull : Bool) (count max : Nat) : NOSErr × Option nOS_Sem :=
  if semIsNull then (NOS_E_NULL, none)
  else if max = 0 then (NOS_E_INV_VAL, none)
  else if count > max then (NOS_E_INV_VAL, none)
  else (NOS_OK, some ⟨count, max, []⟩)

/-- Embedding of `nOS_SemTake` (sem.c lines 53-82).  `semRef = none` models a null
pointer.  The blocking branch calls the external `nOS_EventWait`, which
enqueues the calling thread and eventually resolves to some status
(granted or timed out); that resolution is the oracle parameter `waitErr`.
Returns the status and the semaphore object after the call's synchronous
effect. -/
def nOS_SemTake (semRef : Option nOS_Sem) (tout : Nat) (ctx : ExecCtx)
    (caller : nOS_Thread) (waitErr : NOSErr) : NOSErr × Option nOS_Sem :=
  match semRef with
  | none => (NOS_E_NULL, none)
  | some sem =>
    if ctx.isrNesting > 0 then (NOS_E_ISR, some sem)
    else if ctx.lockNesting > 0 then (NOS_E_LOCKED, some sem)
    else if ctx.runningIsIdle ∧ tout > 0 then (NOS_E_IDLE, some sem)
    else if sem.count > 0 then (NOS_OK, some { sem with count := sem.count - 1 })
    else if tout > 0 then
      (waitErr, some { sem with waiting := sem.waiting ++ [caller] })
    else (NOS_E_AGAIN, some sem)

/-- Embedding of `nOS_SemGive` (sem.c lines 90-120).  The third component records
whether `nOS_Sched()` was requested. -/
def nOS_SemGive (semRef : Option nOS_Sem) (ctx : ExecCtx) :
    NOSErr × Option nOS_Sem × Bool :=
  match semRef with
  | none => (NOS_E_NULL, none, false)
  | some sem =>
    match nOS_EventSignal sem.waiting with
    | (some t, rest) =>
      (NOS_OK, some { sem with waiting := rest },
       decide (t.state = ThreadState.ready) && decide (ctx.runningPri < t.pri))
    | (none, _) =>
      if sem.count < sem.max then
        (NOS_OK, some { sem with count := sem.count + 1 }, false)
      else (NOS_E_OVERFLOW, some sem, false)

/-! ## nOS_Flag group (flag.c) -/

/-- Wait options of a flag wait.  Modelled from the spec: the constants
`NOS_FLAG_WAIT_ALL` / `NOS_FLAG_WAIT_ANY` and the independent
`NOS_FLAG_CLEAR_ON_EXIT` bit live in the header, not among the given
sources; `waitAll` is the test `(opt & NOS_FLAG_WAIT) == NOS_FLAG_WAIT_ALL`
and `clearOnExit` is the test `opt & NOS_FLAG_CLEAR_ON_EXIT`. -/
structure FlagOpt where
  waitAll : Bool
  clearOnExit : Bool
  deriving DecidableEq, Repr

/-- A thread waiting on a flag group, with its published
`nOS_FlagContext`: wanted bits (`ctx->flags`), options (`ctx->opt`) and
its priority (the result slot `ctx->rflags` is represented by the output
of the walk). -/
structure FlagWaiter where
  wanted : Nat
  opt : FlagOpt
  pri : Nat
  deriving DecidableEq, Repr

/-- The `nOS_Flag` object: the stored bitmask (`unsigned int flags`) and
the wait list of the embedded Event base. -/
structure nOS_Flag where
  flags : Nat
  waiting : List FlagWaiter
  deriving DecidableEq, Repr

/-- The satisfaction rule shared by the immediate check in `nOS_FlagWait`
(flag.c lines 134-138) and by `TestFlag` (flag.c lines 27-30):
`r = flags & wanted`, and under WAIT_ALL a partial match counts as none
(`NOS_FLAG_NONE` is 0). -/
def flagTestResult (flags wanted : Nat) (waitAll : Bool) : Nat :=
  let r := flags &&& wanted
  if waitAll ∧ r ≠ wanted then 0 else r

/-- The `nOS_FlagResult` accumulator of `nOS_FlagSet`: union of awoken
bits to clear (`rflags`) and the preemption request (`sched`). -/
structure nOS_FlagResult where
  rflags : Nat
  sched : Bool
  deriving DecidableEq, Repr

/-- Embedding of `TestFlag` (flag.c lines 18-44), the visitor run on one waiting
thread: evaluates the waiter against the group's current bitmask; if
satisfied it signals the thread (second component `some r`, the value
written through `ctx->rflags`), accumulates `r` into `res.rflags` when the
waiter asked CLEAR_ON_EXIT, and raises `res.sched` when the woken thread
outranks the running one. -/
def TestFlag (gflags runningPri : Nat) (w : FlagWaiter) (res : nOS_FlagResult) :
    nOS_FlagResult × Option Nat :=
  let r := flagTestResult gflags w.wanted w.opt.waitAll
  if r ≠ 0 then
    ({ rflags := if w.opt.clearOnExit then res.rflags ||| r else res.rflags,
       sched := res.sched || decide (runningPri < w.pri) }, some r)
  else (res, none)

/-- Embedding of `nOS_ListWalk(&flag->e.waitingList, TestFlag, &res)` (flag.c line
200): run `TestFlag` once per waiting thread in list order, threading the
accumulator.  Modelled from the spec for the walk itself (the Event base's
`ListWalk` visits every currently-waiting thread in list order); the
visitor is `TestFlag` from the source.  Also records, per waiter, the
result slot value `some r` when that waiter was signalled. -/
def listWalkTestFlag (gflags runningPri : Nat) :
    List FlagWaiter → nOS_FlagResult → nOS_FlagResult × List (FlagWaiter × Option Nat)
  | [], res => (res, [])
  | w :: ws, res =>
    let step := TestFlag gflags runningPri w res
    let rest := listWalkTestFlag gflags runningPri ws step.1
    (rest.1, (w, step.2) :: rest.2)

/-- Embedding of `nOS_FlagCreate` (flag.c lines 62-80).  Note: the null-pointer branch
of the source returns `NOS_E_FULL` (flag.c line 68), although the
function's own comment block documents `NOS_E_NULL`. -/
def nOS_FlagCreate (flagIsNull : Bool) (flags : Nat) : NOSErr × Option nOS_Flag :=
  if flagIsNull then (NOS_E_FULL, none)
  else (NOS_OK, some ⟨flags, []⟩)

/-- Embedding of `nOS_FlagWait` (flag.c lines 115-164).  `flagRef = none` models a null
`flag` pointer and `resNull` a null `res` pointer; `resOld` is the value
of the caller's result variable before the call, and the second `Nat`
component of the output is its value after the call.  The blocking branch
publishes a wait context and calls the external `nOS_EventWait`; its
eventual resolution is the oracle `waitErr`, and `waitR` is the value the
signalling side wrote through `ctx->rflags` into the local `r`.  The
returned `Option nOS_Flag` is the group after the call's synchronous effect
(the immediate paths leave it untouched; the blocking path enqueues the
caller). -/
def nOS_FlagWait (flagRef : Option nOS_Flag) (opt : FlagOpt) (wanted : Nat)
    (resNull : Bool) (resOld : Nat) (tout : Nat) (ctx : ExecCtx)
    (waitErr : NOSErr) (waitR : Nat) : NOSErr × Option nOS_Flag × Nat :=
  match flagRef with
  | none => (NOS_E_NULL, none, resOld)
  | some fl =>
    if ctx.isrNesting > 0 then (NOS_E_ISR, some fl, resOld)
    else if ctx.lockNesting > 0 then (NOS_E_LOCKED, some fl, resOld)
    else if ctx.runningIsIdle ∧ tout > 0 then (NOS_E_IDLE, some fl, resOld)
    else
      let r := flagTestResult fl.flags wanted opt.waitAll
      if r ≠ 0 then
        (NOS_OK, some fl, if resNull then resOld else r)
      else if tout > 0 then
        (waitErr,
         some { fl with waiting := fl.waiting ++ [⟨wanted, opt, ctx.runningPri⟩] },
         if waitErr = NOS_OK ∧ ¬resNull then waitR else resOld)
      else (NOS_E_AGAIN, some fl, resOld)

/-- Output of `nOS_FlagSet`: status, the group after the call (woken
waiters removed from the list, bitmask updated and clear-on-exit applied),
the per-waiter outcomes of the broadcast walk (`some r` = signalled with
result `r`), and whether `nOS_Sched()` was requested. -/
structure FlagSetOut where
  err : NOSErr
  flag : Option nOS_Flag
  wakes : List (FlagWaiter × Option Nat)
  sched : Bool
  deriving DecidableEq, Repr

/-- The bitmask update performed by `nOS_FlagSet` (flag.c line 199):
`flags = flags ^ ((flags ^ newFlags) & mask)`. -/
def flagSetUpdate (flags newFlags mask : Nat) : Nat :=
  flags ^^^ ((flags ^^^ newFlags) &&& mask)

/-- Embedding of `nOS_FlagSet` (flag.c lines 185-212): update the bitmask
with `flags ^ ((flags ^ newFlags) & mask)`, walk the whole wait list with
`TestFlag`, then clear the accumulated awoken bits in one step
(`flags &= ~res.rflags`) and request a reschedule if some woken thread
outranked the running one. -/
def nOS_FlagSet (flagRef : Option nOS_Flag) (newFlags mask : Nat) (ctx : ExecCtx) :
    FlagSetOut :=
  match flagRef with
  | none => ⟨NOS_E_NULL, none, [], false⟩
  | some fl =>
    let f1 := flagSetUpdate fl.flags newFlags mask
    let walk := listWalkTestFlag f1 ctx.runningPri fl.waiting ⟨0, false⟩
    ⟨NOS_OK,
     some ⟨Nat.ldiff f1 walk.1.rflags,
           (walk.2.filter (fun p => p.2 = none)).map Prod.fst⟩,
     walk.2, walk.1.sched⟩

/-- Semaphore states reachable from a successful `nOS_SemCreate` through
any sequence of (non-null) `nOS_SemTake` / `nOS_SemGive` calls, under any
execution context and any resolution of the blocking waits. -/
inductive SemReachable : nOS_Sem → Prop
  | create (count max : Nat) (s : nOS_Sem) :
      nOS_SemCreate false count max = (NOS_OK, some s) → SemReachable s
  | take (s : nOS_Sem) (tout : Nat) (ctx : ExecCtx) (caller : nOS_Thread)
      (waitErr e : NOSErr) (s' : nOS_Sem) : SemReachable s →
      nOS_SemTake (some s) tout ctx caller waitErr = (e, some s') →
      SemReachable s'
  | give (s : nOS_Sem) (ctx : ExecCtx) (e : NOSErr) (s' : nOS_Sem) (b : Bool) :
      SemReachable s →
      nOS_SemGive (some s) ctx = (e, some s', b) → SemReachable s'

/-! ## Helper lemmas -/

/-- The Event base reports an empty wait list exactly by returning no
thread. -/
theorem eventSignal_fst_none (l : List nOS_Thread) :
    (nOS_EventSignal l).1 = none → l = [] := by
  intro h
  cases l with
  | nil => rfl
  | cons t ts =>
    exfalso
    rcases hsig : nOS_EventSignal ts with ⟨o, rest⟩
    cases o <;> simp [nOS_EventSignal, hsig] at h
    split at h <;> simp at h

/-- A nonempty wait list always yields a signalled thread. -/
theorem eventSignal_fst_some (l : List nOS_Thread) (hne : l ≠ []) :
    ∃ t rest, nOS_EventSignal l = (some t, rest) := by
  rcases hsig : nOS_EventSignal l with ⟨o, rest⟩
  cases o with
  | none => exact absurd (eventSignal_fst_none l (by rw [hsig])) hne
  | some t => exact ⟨t, rest, rfl⟩

/-- The thread dequeued by `nOS_EventSignal` is a waiter of maximal
priority. -/
theorem eventSignal_max (l : List nOS_Thread) (t : nOS_Thread)
    (rest : List nOS_Thread) (h : nOS_EventSignal l = (some t, rest)) :
    t ∈ l ∧ ∀ u ∈ l, u.pri ≤ t.pri := by
  induction l generalizing t rest with
  | nil => simp [nOS_EventSignal] at h
  | cons a as ih =>
    rcases hsig : nOS_EventSignal as with ⟨o, r⟩
    cases o with
    | none =>
      have has : as = [] := eventSignal_fst_none as (by rw [hsig])
      subst has
      have hred : nOS_EventSignal [a] = (some a, []) := by
        simp [nOS_EventSignal]
      rw [hred] at h
      simp only [Prod.mk.injEq, Option.some.injEq] at h
      rw [← h.1]
      simp
    | some u =>
      have hred : nOS_EventSignal (a :: as) =
          if a.pri < u.pri then (some u, a :: r) else (some a, as) := by
        simp only [nOS_EventSignal, hsig]
      rw [hred] at h
      split at h
      next hlt =>
        simp only [Prod.mk.injEq, Option.some.injEq] at h
        obtain ⟨hmem, hmax⟩ := ih u r hsig
        rw [← h.1]
        refine ⟨List.mem_cons_of_mem a hmem, ?_⟩
        intro v hv
        rcases List.mem_cons.mp hv with rfl | hv
        · exact Nat.le_of_lt hlt
        · exact hmax v hv
      next hge =>
        simp only [Prod.mk.injEq, Option.some.injEq] at h
        rw [← h.1]
        refine ⟨List.mem_cons_self a as, ?_⟩
        intro v hv
        rcases List.mem_cons.mp hv with rfl | hv
        · exact Nat.le_refl _
        · exact Nat.le_trans ((ih u r hsig).2 v hv) (Nat.le_of_not_lt hge)

/-! ## Claims -/

/-- C1: `nOS_SemGive` on a valid semaphore does exactly one of three
things: with at least one waiter it wakes the highest-priority waiter,
leaves `count` unchanged, returns success, and requests a reschedule iff
the woken thread is ready and outranks the running thread; with no waiter
and `count < max` it increments `count` and returns success; with no
waiter and `count = max` it returns the overflow error with `count`
unchanged. -/
theorem semGive_behaviour (sem : nOS_Sem) (ctx : ExecCtx) :
    (sem.waiting ≠ [] →
      ∃ t rest, nOS_EventSignal sem.waiting = (some t, rest)) ∧
    (∀ t rest, nOS_EventSignal sem.waiting = (some t, rest) →
      t ∈ sem.waiting ∧ (∀ u ∈ sem.waiting, u.pri ≤ t.pri) ∧
      nOS_SemGive (some sem) ctx =
        (NOS_OK, some { sem with waiting := rest },
         decide (t.state = ThreadState.ready) &&
           decide (ctx.runningPri < t.pri))) ∧
    (sem.waiting = [] → sem.count < sem.max →
      nOS_SemGive (some sem) ctx =
        (NOS_OK, some { sem with count := sem.count + 1 }, false)) ∧
    (sem.waiting = [] → sem.count = sem.max →
      nOS_SemGive (some sem) ctx = (NOS_E_OVERFLOW, some sem, false)) := by
  refine ⟨fun hne => eventSignal_fst_some sem.waiting hne, ?_, ?_, ?_⟩
  · intro t rest hsig
    obtain ⟨hmem, hmax⟩ := eventSignal_max sem.waiting t rest hsig
    exact ⟨hmem, hmax, by simp [nOS_SemGive, hsig]⟩
  · intro hnil hlt
    have hsig : nOS_EventSignal sem.waiting = (none, []) := by
      rw [hnil]; rfl
    simp [nOS_SemGive, hsig, hlt]
  · intro hnil heq
    have hsig : nOS_EventSignal sem.waiting = (none, []) := by
      rw [hnil]; rfl
    simp [nOS_SemGive, hsig, heq]

/-- Witness for C1: a concrete semaphore with two waiters of priorities 5
and 7 and a running thread of priority 3; Give wakes the priority-7
waiter, leaves `count` at 0 and requests a reschedule; concrete instances
of the no-waiter branches as well. -/
theorem semGive_behaviour_witness :
    nOS_SemGive (some ⟨0, 2, [⟨5, .ready⟩, ⟨7, .ready⟩]⟩) ⟨0, 0, false, 3⟩ =
      (NOS_OK, some ⟨0, 2, [⟨5, .ready⟩]⟩, true) ∧
    nOS_SemGive (some ⟨1, 2, []⟩) ⟨0, 0, false, 3⟩ =
      (NOS_OK, some ⟨2, 2, []⟩, false) ∧
    nOS_SemGive (some ⟨2, 2, []⟩) ⟨0, 0, false, 3⟩ =
      (NOS_E_OVERFLOW, some ⟨2, 2, []⟩, false) := by
  refine ⟨?_, ?_, ?_⟩
  · exact ((semGive_behaviour ⟨0, 2, [⟨5, .ready⟩, ⟨7, .ready⟩]⟩
      ⟨0, 0, false, 3⟩).2.1 ⟨7, .ready⟩ [⟨5, .ready⟩] (by decide)).2.2
  · exact (semGive_behaviour ⟨1, 2, []⟩ ⟨0, 0, false, 3⟩).2.2.1 rfl
      (by decide)
  · exact (semGive_behaviour ⟨2, 2, []⟩ ⟨0, 0, false, 3⟩).2.2.2 rfl rfl


/-- State bound used by the C2 invariant: one `nOS_SemTake` call never
increases `count` and never changes `max`. -/
theorem semTake_state_bound (s : nOS_Sem) (tout : Nat) (ctx : ExecCtx)
    (caller : nOS_Thread) (waitErr e : NOSErr) (s' : nOS_Sem)
    (ht : nOS_SemTake (some s) tout ctx caller waitErr = (e, some s')) :
    s'.max = s.max ∧ s'.count ≤ s.count := by
  simp only [nOS_SemTake] at ht
  by_cases h1 : ctx.isrNesting > 0
  · rw [if_pos h1] at ht
    injection ht with he hs; injection hs with hs; cases hs
    exact ⟨rfl, Nat.le_refl _⟩
  rw [if_neg h1] at ht
  by_cases h2 : ctx.lockNesting > 0
  · rw [if_pos h2] at ht
    injection ht with he hs; injection hs with hs; cases hs
    exact ⟨rfl, Nat.le_refl _⟩
  rw [if_neg h2] at ht
  by_cases h3 : ctx.runningIsIdle = true ∧ tout > 0
  · rw [if_pos h3] at ht
    injection ht with he hs; injection hs with hs; cases hs
    exact ⟨rfl, Nat.le_refl _⟩
  rw [if_neg h3] at ht
  by_cases h4 : s.count > 0
  · rw [if_pos h4] at ht
    injection ht with he hs; injection hs with hs; cases hs
    exact ⟨rfl, Nat.sub_le _ _⟩
  rw [if_neg h4] at ht
  by_cases h5 : tout > 0
  · rw [if_pos h5] at ht
    injection ht with he hs; injection hs with hs; cases hs
    exact ⟨rfl, Nat.le_refl _⟩
  rw [if_neg h5] at ht
  injection ht with he hs; injection hs with hs; cases hs
  exact ⟨rfl, Nat.le_refl _⟩

/-- Characterization of a successful `nOS_SemCreate`: the guards enforce
the creation preconditions `max > 0` and `count ≤ max`. -/
theorem semCreate_bounds (count max : Nat) (s : nOS_Sem)
    (hc : nOS_SemCreate false count max = (NOS_OK, some s)) :
    s = ⟨count, max, []⟩ ∧ 0 < max ∧ count ≤ max := by
  simp only [nOS_SemCreate] at hc
  rw [if_neg (by decide : ¬(false = true))] at hc
  by_cases h1 : max = 0
  · rw [if_pos h1] at hc
    injection hc with he _
    exact absurd he (by decide)
  rw [if_neg h1] at hc
  by_cases h2 : count > max
  · rw [if_pos h2] at hc
    injection hc with he _
    exact absurd he (by decide)
  rw [if_neg h2] at hc
  injection hc with _ hs
  injection hs with hs
  exact ⟨hs.symm, Nat.pos_of_ne_zero h1, Nat.le_of_not_lt h2⟩

/-- State bound used by the C2 invariant: one `nOS_SemGive` call changes
`count` only by the guarded increment and never changes `max`. -/
theorem semGive_state_bound (s : nOS_Sem) (ctx : ExecCtx) (e : NOSErr)
    (s' : nOS_Sem) (b : Bool)
    (hg : nOS_SemGive (some s) ctx = (e, some s', b)) :
    s'.max = s.max ∧
      (s'.count = s.count ∨ (s.count < s.max ∧ s'.count = s.count + 1)) := by
  rcases hsig : nOS_EventSignal s.waiting with ⟨o, rest⟩
  cases o with
  | some t =>
    simp only [nOS_SemGive, hsig] at hg
    injection hg with he h2
    injection h2 with hs hb
    injection hs with hs
    cases hs
    exact ⟨rfl, Or.inl rfl⟩
  | none =>
    simp only [nOS_SemGive, hsig] at hg
    by_cases h1 : s.count < s.max
    · rw [if_pos h1] at hg
      injection hg with he h2
      injection h2 with hs hb
      injection hs with hs
      cases hs
      exact ⟨rfl, Or.inr ⟨h1, rfl⟩⟩
    · rw [if_neg h1] at hg
      injection hg with he h2
      injection h2 with hs hb
      injection hs with hs
      cases hs
      exact ⟨rfl, Or.inl rfl⟩


/-- C2: every semaphore state reachable from a successful
`nOS_SemCreate(count, max)` (whose guards enforce `max > 0` and
`count ≤ max`) through any sequence of `nOS_SemTake` / `nOS_SemGive`
calls satisfies `0 ≤ count ≤ max`: no operation raises `count` above
`max` or drops it below zero (the decrement is guarded by `count > 0`,
so `Nat` subtraction coincides with the machine subtraction). -/
theorem sem_count_invariant (s : nOS_Sem) (h : SemReachable s) :
    0 ≤ s.count ∧ s.count ≤ s.max := by
  refine ⟨Nat.zero_le _, ?_⟩
  induction h with
  | create count max s hc =>
    obtain ⟨rfl, hpos, hle⟩ := semCreate_bounds count max s hc
    exact hle
  | take s tout ctx caller waitErr e s' _ ht ih =>
    obtain ⟨hmax, hcnt⟩ := semTake_state_bound s tout ctx caller waitErr e s' ht
    omega
  | give s ctx e s' b _ hg ih =>
    obtain ⟨hmax, hcnt⟩ := semGive_state_bound s ctx e s' b hg
    omega

/-- Witness for C2: the state reached from Create(1, 2) followed by one
Give is reachable and satisfies the invariant. -/
theorem sem_count_invariant_witness :
    SemReachable ⟨2, 2, []⟩ ∧
    0 ≤ (⟨2, 2, []⟩ : nOS_Sem).count ∧
    (⟨2, 2, []⟩ : nOS_Sem).count ≤ (⟨2, 2, []⟩ : nOS_Sem).max := by
  have h1 : SemReachable ⟨1, 2, []⟩ := SemReachable.create 1 2 _ rfl
  have h2 : SemReachable ⟨2, 2, []⟩ :=
    SemReachable.give ⟨1, 2, []⟩ ⟨0, 0, false, 3⟩ NOS_OK ⟨2, 2, []⟩ false h1 rfl
  exact ⟨h2, sem_count_invariant ⟨2, 2, []⟩ h2⟩

/-- C3: on a valid semaphore with the legality checks passed,
`nOS_SemTake` with `count > 0` decrements `count` exactly once and
returns success immediately without touching the wait list; with
`count = 0` and `tout = 0` it returns the would-block error and changes
nothing; with `count = 0` and `tout > 0` it suspends the caller on the
wait list and returns the status the wait resolves to. -/
theorem semTake_behaviour (sem : nOS_Sem) (tout : Nat) (ctx : ExecCtx)
    (caller : nOS_Thread) (waitErr : NOSErr)
    (hisr : ctx.isrNesting = 0) (hlock : ctx.lockNesting = 0)
    (hidle : ¬(ctx.runningIsIdle = true ∧ tout > 0)) :
    (sem.count > 0 →
      nOS_SemTake (some sem) tout ctx caller waitErr =
        (NOS_OK, some { sem with count := sem.count - 1 })) ∧
    (sem.count = 0 → tout = 0 →
      nOS_SemTake (some sem) tout ctx caller waitErr =
        (NOS_E_AGAIN, some sem)) ∧
    (sem.count = 0 → tout > 0 →
      nOS_SemTake (some sem) tout ctx caller waitErr =
        (waitErr, some { sem with waiting := sem.waiting ++ [caller] })) := by
  refine ⟨?_, ?_, ?_⟩
  · intro h1
    simp only [nOS_SemTake]
    rw [if_neg (by omega : ¬ctx.isrNesting > 0),
        if_neg (by omega : ¬ctx.lockNesting > 0), if_neg hidle, if_pos h1]
  · intro h1 h2
    simp only [nOS_SemTake]
    rw [if_neg (by omega : ¬ctx.isrNesting > 0),
        if_neg (by omega : ¬ctx.lockNesting > 0), if_neg hidle,
        if_neg (by omega : ¬sem.count > 0), if_neg (by omega : ¬tout > 0)]
  · intro h1 h2
    simp only [nOS_SemTake]
    rw [if_neg (by omega : ¬ctx.isrNesting > 0),
        if_neg (by omega : ¬ctx.lockNesting > 0), if_neg hidle,
        if_neg (by omega : ¬sem.count > 0), if_pos h2]

/-- Witness for C3: concrete instances of the three branches, with the
blocking wait resolving to a timeout in the third one. -/
theorem semTake_behaviour_witness :
    nOS_SemTake (some ⟨2, 2, []⟩) 0 ⟨0, 0, false, 3⟩ ⟨4, .waiting⟩ NOS_OK =
      (NOS_OK, some ⟨1, 2, []⟩) ∧
    nOS_SemTake (some ⟨0, 1, []⟩) 0 ⟨0, 0, false, 3⟩ ⟨4, .waiting⟩ NOS_OK =
      (NOS_E_AGAIN, some ⟨0, 1, []⟩) ∧
    nOS_SemTake (some ⟨0, 1, []⟩) 5 ⟨0, 0, false, 3⟩ ⟨4, .waiting⟩
        NOS_E_TIMEOUT =
      (NOS_E_TIMEOUT, some ⟨0, 1, [⟨4, .waiting⟩]⟩) := by
  refine ⟨?_, ?_, ?_⟩
  · exact (semTake_behaviour ⟨2, 2, []⟩ 0 ⟨0, 0, false, 3⟩ ⟨4, .waiting⟩
      NOS_OK rfl rfl (by decide)).1 (by decide)
  · exact (semTake_behaviour ⟨0, 1, []⟩ 0 ⟨0, 0, false, 3⟩ ⟨4, .waiting⟩
      NOS_OK rfl rfl (by decide)).2.1 rfl rfl
  · exact (semTake_behaviour ⟨0, 1, []⟩ 5 ⟨0, 0, false, 3⟩ ⟨4, .waiting⟩
      NOS_E_TIMEOUT rfl rfl (by decide)).2.2 rfl (by decide)

/-- Under WAIT_ALL the satisfaction rule holds exactly when every
requested bit is set (and something was requested). -/
theorem flagTest_all_iff (flags wanted : Nat) :
    flagTestResult flags wanted true ≠ 0 ↔
      (flags &&& wanted = wanted ∧ wanted ≠ 0) := by
  unfold flagTestResult
  by_cases h : flags &&& wanted = wanted
  · simp [h]
  · simp [h]

/-- Under WAIT_ANY the satisfaction rule holds exactly when at least one
requested bit is set. -/
theorem flagTest_any_iff (flags wanted : Nat) :
    flagTestResult flags wanted false ≠ 0 ↔ flags &&& wanted ≠ 0 := by
  simp [flagTestResult]

/-- C4: for a valid flag group with the legality checks passed, the
immediate-success condition of `nOS_FlagWait` is `r = flags & wantedFlags`
zeroed when WAIT_ALL finds a partial match; the call succeeds immediately
iff `r ≠ 0`, reporting exactly `r`; when `r = 0` it would-blocks
(`tout = 0`) or suspends (`tout > 0`); hence WAIT_ALL succeeds only when
every requested bit is set and WAIT_ANY as soon as one is. -/
theorem flagWait_immediate_condition (fl : nOS_Flag) (opt : FlagOpt)
    (wanted resOld tout : Nat) (ctx : ExecCtx) (waitErr : NOSErr)
    (waitR : Nat) (hisr : ctx.isrNesting = 0) (hlock : ctx.lockNesting = 0)
    (hidle : ¬(ctx.runningIsIdle = true ∧ tout > 0)) :
    (flagTestResult fl.flags wanted opt.waitAll ≠ 0 →
      nOS_FlagWait (some fl) opt wanted false resOld tout ctx waitErr waitR =
        (NOS_OK, some fl, flagTestResult fl.flags wanted opt.waitAll)) ∧
    (flagTestResult fl.flags wanted opt.waitAll = 0 → tout = 0 →
      nOS_FlagWait (some fl) opt wanted false resOld tout ctx waitErr waitR =
        (NOS_E_AGAIN, some fl, resOld)) ∧
    (flagTestResult fl.flags wanted opt.waitAll = 0 → tout > 0 →
      nOS_FlagWait (some fl) opt wanted false resOld tout ctx waitErr waitR =
        (waitErr,
         some { fl with waiting :=
            fl.waiting ++ [⟨wanted, opt, ctx.runningPri⟩] },
         if waitErr = NOS_OK then waitR else resOld)) ∧
    (flagTestResult fl.flags wanted opt.waitAll =
      if opt.waitAll = true ∧ fl.flags &&& wanted ≠ wanted then 0
      else fl.flags &&& wanted) ∧
    (opt.waitAll = true →
      (flagTestResult fl.flags wanted opt.waitAll ≠ 0 ↔
        (fl.flags &&& wanted = wanted ∧ wanted ≠ 0))) ∧
    (opt.waitAll = false →
      (flagTestResult fl.flags wanted opt.waitAll ≠ 0 ↔
        fl.flags &&& wanted ≠ 0)) := by
  refine ⟨?_, ?_, ?_, rfl, ?_, ?_⟩
  · intro h1
    simp only [nOS_FlagWait]
    rw [if_neg (by omega : ¬ctx.isrNesting > 0),
        if_neg (by omega : ¬ctx.lockNesting > 0), if_neg hidle, if_pos h1]
    rfl
  · intro h1 h2
    simp only [nOS_FlagWait]
    rw [if_neg (by omega : ¬ctx.isrNesting > 0),
        if_neg (by omega : ¬ctx.lockNesting > 0), if_neg hidle,
        if_neg (by simpa using h1), if_neg (by omega : ¬tout > 0)]
  · intro h1 h2
    simp only [nOS_FlagWait]
    rw [if_neg (by omega : ¬ctx.isrNesting > 0),
        if_neg (by omega : ¬ctx.lockNesting > 0), if_neg hidle,
        if_neg (by simpa using h1), if_pos h2]
    by_cases hok : waitErr = NOS_OK
    · simp [hok]
    · simp [hok]
  · intro h
    rw [h]
    exact flagTest_all_iff fl.flags wanted
  · intro h
    rw [h]
    exact flagTest_any_iff fl.flags wanted

/-- Witness for C4: on `flags = 0b001`, `Wait(WAIT_ALL, 0b011)` is not
satisfied (would-block when non-blocking), while on `flags = 0b011` it
succeeds reporting `0b011`; `Wait(WAIT_ANY, 0b011)` on `flags = 0b001`
succeeds reporting `0b001`. -/
theorem flagWait_immediate_condition_witness :
    nOS_FlagWait (some ⟨1, []⟩) ⟨true, false⟩ 3 false 9 0 ⟨0, 0, false, 2⟩
        NOS_OK 0 = (NOS_E_AGAIN, some ⟨1, []⟩, 9) ∧
    nOS_FlagWait (some ⟨3, []⟩) ⟨true, false⟩ 3 false 9 0 ⟨0, 0, false, 2⟩
        NOS_OK 0 = (NOS_OK, some ⟨3, []⟩, 3) ∧
    nOS_FlagWait (some ⟨1, []⟩) ⟨false, false⟩ 3 false 9 0 ⟨0, 0, false, 2⟩
        NOS_OK 0 = (NOS_OK, some ⟨1, []⟩, 1) := by
  refine ⟨?_, ?_, ?_⟩
  · exact (flagWait_immediate_condition ⟨1, []⟩ ⟨true, false⟩ 3 9 0
      ⟨0, 0, false, 2⟩ NOS_OK 0 rfl rfl (by decide)).2.1 (by decide) rfl
  · exact (flagWait_immediate_condition ⟨3, []⟩ ⟨true, false⟩ 3 9 0
      ⟨0, 0, false, 2⟩ NOS_OK 0 rfl rfl (by decide)).1 (by decide)
  · exact (flagWait_immediate_condition ⟨1, []⟩ ⟨false, false⟩ 3 9 0
      ⟨0, 0, false, 2⟩ NOS_OK 0 rfl rfl (by decide)).1 (by decide)


/-- Clearing no bits is the identity. -/
theorem nat_ldiff_zero (x : Nat) : Nat.ldiff x 0 = x := by
  apply Nat.eq_of_testBit_eq
  intro i
  simp [Nat.testBit_ldiff]

/-- C5: the bitmask update of `nOS_FlagSet` is
`flags ^ ((flags ^ newFlags) & mask)`, which equals
`(flags & ~mask) | (newFlags & mask)`: every bit in `mask` takes the
corresponding bit of `newFlags` and bits outside `mask` are unaltered; a
Set on a group with no waiter stores exactly this value. -/
theorem flagSet_update_formula (n m : Nat) :
    (∀ f, flagSetUpdate f n m = Nat.ldiff f m ||| (n &&& m)) ∧
    (∀ f i, (flagSetUpdate f n m).testBit i =
      if m.testBit i then n.testBit i else f.testBit i) ∧
    (∀ (fl : nOS_Flag) (ctx : ExecCtx), fl.waiting = [] →
      (nOS_FlagSet (some fl) n m ctx).flag =
        some ⟨flagSetUpdate fl.flags n m, []⟩) := by
  refine ⟨?_, ?_, ?_⟩
  · intro f
    apply Nat.eq_of_testBit_eq
    intro i
    simp only [flagSetUpdate, Nat.testBit_xor, Nat.testBit_land,
      Nat.testBit_lor, Nat.testBit_ldiff]
    cases f.testBit i <;> cases n.testBit i <;> cases m.testBit i <;> rfl
  · intro f i
    simp only [flagSetUpdate, Nat.testBit_xor, Nat.testBit_land]
    cases f.testBit i <;> cases n.testBit i <;> cases m.testBit i <;> rfl
  · intro fl ctx hw
    simp only [nOS_FlagSet, hw, listWalkTestFlag, nat_ldiff_zero,
      List.filter_nil, List.map_nil]

/-- Witness for C5: `Set(newFlags = 0b101, mask = 0b101)` on a waiterless
group with `flags = 0b010` stores `0b111`. -/
theorem flagSet_update_formula_witness :
    flagSetUpdate 2 5 5 = Nat.ldiff 2 5 ||| (5 &&& 5) ∧
    (nOS_FlagSet (some ⟨2, []⟩) 5 5 ⟨0, 0, false, 2⟩).flag =
      some ⟨7, []⟩ := by
  refine ⟨(flagSet_update_formula 5 5).1 2, ?_⟩
  have h := (flagSet_update_formula 5 5).2.2 ⟨2, []⟩ ⟨0, 0, false, 2⟩ rfl
  rw [h]
  rfl

/-- The broadcast walk visits every waiter of the list, in order. -/
theorem listWalk_map_fst (g p : Nat) (l : List FlagWaiter)
    (res : nOS_FlagResult) :
    (listWalkTestFlag g p l res).2.map Prod.fst = l := by
  induction l generalizing res with
  | nil => rfl
  | cons w ws ih => simp [listWalkTestFlag, ih]

/-- Each visited waiter is signalled iff the shared satisfaction rule
holds for it against the bitmask the walk was started with, and the value
written to its result slot is exactly that rule's `r`. -/
theorem listWalk_outcome (g p : Nat) (l : List FlagWaiter)
    (res : nOS_FlagResult) :
    ∀ q ∈ (listWalkTestFlag g p l res).2,
      q.2 = if flagTestResult g q.1.wanted q.1.opt.waitAll ≠ 0
            then some (flagTestResult g q.1.wanted q.1.opt.waitAll)
            else none := by
  induction l generalizing res with
  | nil =>
    intro q hq
    simp [listWalkTestFlag] at hq
  | cons w ws ih =>
    intro q hq
    simp only [listWalkTestFlag, List.mem_cons] at hq
    rcases hq with rfl | hq
    · by_cases h : flagTestResult g w.wanted w.opt.waitAll ≠ 0
      · simp [TestFlag, h]
      · simp [TestFlag, h]
    · exact ih _ q hq

/-- The `rflags` accumulator after the walk holds exactly the union of
the awoken bits of the satisfied waiters that requested CLEAR_ON_EXIT. -/
theorem listWalk_rflags (g p : Nat) (l : List FlagWaiter)
    (res : nOS_FlagResult) (i : Nat) :
    ((listWalkTestFlag g p l res).1.rflags.testBit i = true) ↔
      (res.rflags.testBit i = true ∨ ∃ w ∈ l, w.opt.clearOnExit = true ∧
        flagTestResult g w.wanted w.opt.waitAll ≠ 0 ∧
        (flagTestResult g w.wanted w.opt.waitAll).testBit i = true) := by
  induction l generalizing res with
  | nil => simp [listWalkTestFlag]
  | cons w ws ih =>
    simp only [listWalkTestFlag]
    rw [ih]
    by_cases hr : flagTestResult g w.wanted w.opt.waitAll ≠ 0
    · by_cases hc : w.opt.clearOnExit = true
      · simp only [TestFlag, if_pos hr, hc, if_true, ite_true, Nat.testBit_lor,
          List.mem_cons]
        constructor
        · rintro (hb | hx)
          · rcases Bool.or_eq_true_iff.mp hb with hb | hb
            · exact Or.inl hb
            · exact Or.inr ⟨w, Or.inl rfl, hc, hr, hb⟩
          · rcases hx with ⟨v, hv, h1, h2, h3⟩
            exact Or.inr ⟨v, Or.inr hv, h1, h2, h3⟩
        · rintro (hb | ⟨v, (rfl | hv), h1, h2, h3⟩)
          · exact Or.inl (Bool.or_eq_true_iff.mpr (Or.inl hb))
          · exact Or.inl (Bool.or_eq_true_iff.mpr (Or.inr h3))
          · exact Or.inr ⟨v, hv, h1, h2, h3⟩
      · simp only [TestFlag, if_pos hr, hc, if_neg hc, List.mem_cons]
        constructor
        · rintro (hb | ⟨v, hv, h1, h2, h3⟩)
          · exact Or.inl hb
          · exact Or.inr ⟨v, Or.inr hv, h1, h2, h3⟩
        · rintro (hb | ⟨v, (rfl | hv), h1, h2, h3⟩)
          · exact Or.inl hb
          · exact absurd h1 hc
          · exact Or.inr ⟨v, hv, h1, h2, h3⟩
    · simp only [TestFlag, if_neg hr, List.mem_cons]
      constructor
      · rintro (hb | ⟨v, hv, h1, h2, h3⟩)
        · exact Or.inl hb
        · exact Or.inr ⟨v, Or.inr hv, h1, h2, h3⟩
      · rintro (hb | ⟨v, (rfl | hv), h1, h2, h3⟩)
        · exact Or.inl hb
        · exact absurd h2 hr
        · exact Or.inr ⟨v, hv, h1, h2, h3⟩

/-- The `sched` accumulator is raised exactly when some satisfied waiter
outranks the running thread. -/
theorem listWalk_sched (g p : Nat) (l : List FlagWaiter)
    (res : nOS_FlagResult) :
    ((listWalkTestFlag g p l res).1.sched = true) ↔
      (res.sched = true ∨ ∃ w ∈ l,
        flagTestResult g w.wanted w.opt.waitAll ≠ 0 ∧ p < w.pri) := by
  induction l generalizing res with
  | nil => simp [listWalkTestFlag]
  | cons w ws ih =>
    simp only [listWalkTestFlag]
    rw [ih]
    by_cases hr : flagTestResult g w.wanted w.opt.waitAll ≠ 0
    · simp only [TestFlag, if_pos hr, List.mem_cons]
      constructor
      · rintro (hb | ⟨v, hv, h1, h2⟩)
        · rcases Bool.or_eq_true_iff.mp hb with hb | hb
          · exact Or.inl hb
          · exact Or.inr ⟨w, Or.inl rfl, hr, of_decide_eq_true hb⟩
        · exact Or.inr ⟨v, Or.inr hv, h1, h2⟩
      · rintro (hb | ⟨v, (rfl | hv), h1, h2⟩)
        · exact Or.inl (Bool.or_eq_true_iff.mpr (Or.inl hb))
        · exact Or.inl (Bool.or_eq_true_iff.mpr (Or.inr (decide_eq_true h2)))
        · exact Or.inr ⟨v, hv, h1, h2⟩
    · simp only [TestFlag, if_neg hr, List.mem_cons]
      constructor
      · rintro (hb | ⟨v, hv, h1, h2⟩)
        · exact Or.inl hb
        · exact Or.inr ⟨v, Or.inr hv, h1, h2⟩
      · rintro (hb | ⟨v, (rfl | hv), h1, h2⟩)
        · exact Or.inl hb
        · exact absurd h1 hr
        · exact Or.inr ⟨v, hv, h1, h2⟩


/-- C6: one `nOS_FlagSet` call evaluates every thread on the wait list
against the new (pre-clear) bitmask with the same ALL/ANY rule as Wait,
wakes each satisfied waiter writing its `r` into its result slot,
accumulates `r` into a bits-to-clear union only for CLEAR_ON_EXIT
waiters, applies that union as one combined clear after all waiters have
been evaluated, and requests a reschedule iff some woken thread outranks
the running thread. -/
theorem flagSet_broadcast (fl : nOS_Flag) (newFlags mask : Nat)
    (ctx : ExecCtx) :
    (nOS_FlagSet (some fl) newFlags mask ctx).err = NOS_OK ∧
    (nOS_FlagSet (some fl) newFlags mask ctx).wakes.map Prod.fst =
      fl.waiting ∧
    (∀ q ∈ (nOS_FlagSet (some fl) newFlags mask ctx).wakes,
      q.2 =
        if flagTestResult (flagSetUpdate fl.flags newFlags mask)
            q.1.wanted q.1.opt.waitAll ≠ 0
        then some (flagTestResult (flagSetUpdate fl.flags newFlags mask)
            q.1.wanted q.1.opt.waitAll)
        else none) ∧
    (∀ i,
      (listWalkTestFlag (flagSetUpdate fl.flags newFlags mask)
          ctx.runningPri fl.waiting ⟨0, false⟩).1.rflags.testBit i = true ↔
        ∃ w ∈ fl.waiting, w.opt.clearOnExit = true ∧
          flagTestResult (flagSetUpdate fl.flags newFlags mask) w.wanted
            w.opt.waitAll ≠ 0 ∧
          (flagTestResult (flagSetUpdate fl.flags newFlags mask) w.wanted
            w.opt.waitAll).testBit i = true) ∧
    (nOS_FlagSet (some fl) newFlags mask ctx).flag =
      some ⟨Nat.ldiff (flagSetUpdate fl.flags newFlags mask)
          (listWalkTestFlag (flagSetUpdate fl.flags newFlags mask)
            ctx.runningPri fl.waiting ⟨0, false⟩).1.rflags,
        ((listWalkTestFlag (flagSetUpdate fl.flags newFlags mask)
            ctx.runningPri fl.waiting ⟨0, false⟩).2.filter
          (fun p => p.2 = none)).map Prod.fst⟩ ∧
    (∀ i,
      (Nat.ldiff (flagSetUpdate fl.flags newFlags mask)
          (listWalkTestFlag (flagSetUpdate fl.flags newFlags mask)
            ctx.runningPri fl.waiting ⟨0, false⟩).1.rflags).testBit i =
        ((flagSetUpdate fl.flags newFlags mask).testBit i &&
         !((listWalkTestFlag (flagSetUpdate fl.flags newFlags mask)
             ctx.runningPri fl.waiting ⟨0, false⟩).1.rflags.testBit i))) ∧
    ((nOS_FlagSet (some fl) newFlags mask ctx).sched = true ↔
      ∃ w ∈ fl.waiting,
        flagTestResult (flagSetUpdate fl.flags newFlags mask) w.wanted
          w.opt.waitAll ≠ 0 ∧ ctx.runningPri < w.pri) := by
  refine ⟨rfl, listWalk_map_fst _ _ _ _, listWalk_outcome _ _ _ _,
    ?_, rfl, ?_, ?_⟩
  · intro i
    rw [listWalk_rflags]
    simp
  · intro i
    rw [Nat.testBit_ldiff]
  · rw [show (nOS_FlagSet (some fl) newFlags mask ctx).sched =
        (listWalkTestFlag (flagSetUpdate fl.flags newFlags mask)
          ctx.runningPri fl.waiting ⟨0, false⟩).1.sched from rfl,
      listWalk_sched]
    simp

/-- Witness for C6: `Set(0b011, 0b011)` on a group with `flags = 0`
holding an ALL-waiter on `0b011` with CLEAR_ON_EXIT (priority 5) and an
ANY-waiter on `0b100` (priority 1), running priority 2: the first waiter
is woken with `r = 0b011` and a reschedule is requested. -/
theorem flagSet_broadcast_witness :
    (nOS_FlagSet
        (some ⟨0, [⟨3, ⟨true, true⟩, 5⟩, ⟨4, ⟨false, false⟩, 1⟩]⟩)
        3 3 ⟨0, 0, false, 2⟩).sched = true ∧
    ((⟨3, ⟨true, true⟩, 5⟩, (some 3 : Option Nat)) :
        FlagWaiter × Option Nat).2 =
      (if flagTestResult (flagSetUpdate 0 3 3) 3 true ≠ 0
       then some (flagTestResult (flagSetUpdate 0 3 3) 3 true)
       else none) := by
  have h := flagSet_broadcast
    ⟨0, [⟨3, ⟨true, true⟩, 5⟩, ⟨4, ⟨false, false⟩, 1⟩]⟩ 3 3 ⟨0, 0, false, 2⟩
  refine ⟨h.2.2.2.2.2.2.mpr ⟨⟨3, ⟨true, true⟩, 5⟩, by decide, by decide,
    by decide⟩, ?_⟩
  exact h.2.2.1 (⟨3, ⟨true, true⟩, 5⟩, some 3) (by decide)

/-- C7 counterexample: on a group with `flags = 0b010`, an ANY-wait for
`0b010` with CLEAR_ON_EXIT succeeds immediately with `r = 0b010`, yet the
stored bitmask stays `0b010`: the immediate-success path performs no
clear (the claim required it to become `0b010 & ~0b010 = 0`). -/
theorem flagWait_clearOnExit_counterexample :
    (nOS_FlagWait (some ⟨2, []⟩) ⟨false, true⟩ 2 false 0 0 ⟨0, 0, false, 2⟩
        NOS_OK 0).1 = NOS_OK ∧
    (nOS_FlagWait (some ⟨2, []⟩) ⟨false, true⟩ 2 false 0 0 ⟨0, 0, false, 2⟩
        NOS_OK 0).2.2 = 2 ∧
    (nOS_FlagWait (some ⟨2, []⟩) ⟨false, true⟩ 2 false 0 0 ⟨0, 0, false, 2⟩
        NOS_OK 0).2.1 = some ⟨2, []⟩ ∧
    Nat.ldiff 2 2 = 0 ∧ (2 : Nat) ≠ 0 ∧
    (some (⟨2, []⟩ : nOS_Flag) ≠ some (⟨0, []⟩ : nOS_Flag)) := by
  refine ⟨rfl, rfl, rfl, ?_, by decide, by decide⟩
  apply Nat.eq_of_testBit_eq
  intro i
  simp [Nat.testBit_ldiff]

/-- C7 amended: the bits of a CLEAR_ON_EXIT waiter's `r` are cleared from
the stored bitmask only on the deferred path, by the signalling Set's
broadcast; the immediate-success path of `nOS_FlagWait` leaves the stored
bitmask unchanged even when CLEAR_ON_EXIT was requested. -/
theorem flagWait_clearOnExit_amended :
    (∀ (fl : nOS_Flag) (opt : FlagOpt) (wanted : Nat) (resNull : Bool)
        (resOld tout : Nat) (ctx : ExecCtx) (waitErr : NOSErr) (waitR : Nat),
      ctx.isrNesting = 0 → ctx.lockNesting = 0 →
      ¬(ctx.runningIsIdle = true ∧ tout > 0) →
      flagTestResult fl.flags wanted opt.waitAll ≠ 0 →
      (nOS_FlagWait (some fl) opt wanted resNull resOld tout ctx waitErr
          waitR).2.1 = some fl) ∧
    (∀ (fl : nOS_Flag) (newFlags mask : Nat) (ctx : ExecCtx)
        (w : FlagWaiter), w ∈ fl.waiting → w.opt.clearOnExit = true →
      flagTestResult (flagSetUpdate fl.flags newFlags mask) w.wanted
        w.opt.waitAll ≠ 0 →
      ∀ i, (flagTestResult (flagSetUpdate fl.flags newFlags mask) w.wanted
          w.opt.waitAll).testBit i = true →
      ∀ fl', (nOS_FlagSet (some fl) newFlags mask ctx).flag = some fl' →
        fl'.flags.testBit i = false) := by
  constructor
  · intro fl opt wanted resNull resOld tout ctx waitErr waitR hisr hlock
      hidle hr
    simp only [nOS_FlagWait]
    rw [if_neg (by omega : ¬ctx.isrNesting > 0),
        if_neg (by omega : ¬ctx.lockNesting > 0), if_neg hidle, if_pos hr]
  · intro fl newFlags mask ctx w hw hc hr i hbit fl' hfl
    have hfl2 : some (⟨Nat.ldiff (flagSetUpdate fl.flags newFlags mask)
        (listWalkTestFlag (flagSetUpdate fl.flags newFlags mask)
          ctx.runningPri fl.waiting ⟨0, false⟩).1.rflags,
        ((listWalkTestFlag (flagSetUpdate fl.flags newFlags mask)
          ctx.runningPri fl.waiting ⟨0, false⟩).2.filter
          (fun p => p.2 = none)).map Prod.fst⟩ : nOS_Flag) = some fl' := hfl
    injection hfl2 with hfl2
    rw [← hfl2]
    have hrf : (listWalkTestFlag (flagSetUpdate fl.flags newFlags mask)
        ctx.runningPri fl.waiting ⟨0, false⟩).1.rflags.testBit i = true := by
      rw [listWalk_rflags]
      exact Or.inr ⟨w, hw, hc, hr, hbit⟩
    simp [Nat.testBit_ldiff, hrf]

/-- Witness for the amended C7: the immediate success of the
counterexample leaves the bitmask untouched, and in the C6 scenario the
woken CLEAR_ON_EXIT waiter's bit 0 is cleared by the Set broadcast. -/
theorem flagWait_clearOnExit_amended_witness :
    (nOS_FlagWait (some ⟨2, []⟩) ⟨false, true⟩ 2 false 0 0 ⟨0, 0, false, 2⟩
        NOS_OK 0).2.1 = some ⟨2, []⟩ ∧
    ((⟨0, [⟨4, ⟨false, false⟩, 1⟩]⟩ : nOS_Flag).flags.testBit 0 = false) := by
  refine ⟨flagWait_clearOnExit_amended.1 ⟨2, []⟩ ⟨false, true⟩ 2 false 0 0
    ⟨0, 0, false, 2⟩ NOS_OK 0 rfl rfl (by decide) (by decide), ?_⟩
  have hstep : (nOS_FlagSet
      (some ⟨0, [⟨3, ⟨true, true⟩, 5⟩, ⟨4, ⟨false, false⟩, 1⟩]⟩)
      3 3 ⟨0, 0, false, 2⟩).flag =
      some ⟨Nat.ldiff 3 3, [⟨4, ⟨false, false⟩, 1⟩]⟩ := rfl
  have hld : Nat.ldiff 3 3 = 0 := by
    apply Nat.eq_of_testBit_eq
    intro i
    simp [Nat.testBit_ldiff]
  exact flagWait_clearOnExit_amended.2
    ⟨0, [⟨3, ⟨true, true⟩, 5⟩, ⟨4, ⟨false, false⟩, 1⟩]⟩ 3 3 ⟨0, 0, false, 2⟩
    ⟨3, ⟨true, true⟩, 5⟩ (by decide) rfl (by decide) 0 (by decide)
    ⟨0, [⟨4, ⟨false, false⟩, 1⟩]⟩ (hstep.trans (by rw [hld]))

/-- C8: `nOS_SemTake` and `nOS_FlagWait` check legality in the order
null pointer, ISR, scheduler locked, idle-with-nonzero-timeout, each
short-circuiting (an earlier failure masks the later conditions), and
every such error return leaves the object and the caller's result
variable unchanged; the idle thread with `tout = 0` passes the idle check
and reaches the normal take/wait logic. -/
theorem legality_checks (ctx : ExecCtx) (tout : Nat) :
    (∀ caller waitErr,
      nOS_SemTake none tout ctx caller waitErr = (NOS_E_NULL, none)) ∧
    (∀ sem caller waitErr, ctx.isrNesting > 0 →
      nOS_SemTake (some sem) tout ctx caller waitErr =
        (NOS_E_ISR, some sem)) ∧
    (∀ sem caller waitErr, ctx.isrNesting = 0 → ctx.lockNesting > 0 →
      nOS_SemTake (some sem) tout ctx caller waitErr =
        (NOS_E_LOCKED, some sem)) ∧
    (∀ sem caller waitErr, ctx.isrNesting = 0 → ctx.lockNesting = 0 →
      ctx.runningIsIdle = true → tout > 0 →
      nOS_SemTake (some sem) tout ctx caller waitErr =
        (NOS_E_IDLE, some sem)) ∧
    (∀ sem caller waitErr, ctx.isrNesting = 0 → ctx.lockNesting = 0 →
      ctx.runningIsIdle = true → tout = 0 → sem.count > 0 →
      nOS_SemTake (some sem) tout ctx caller waitErr =
        (NOS_OK, some { sem with count := sem.count - 1 })) ∧
    (∀ opt wanted resNull resOld waitErr waitR,
      nOS_FlagWait none opt wanted resNull resOld tout ctx waitErr waitR =
        (NOS_E_NULL, none, resOld)) ∧
    (∀ fl opt wanted resNull resOld waitErr waitR, ctx.isrNesting > 0 →
      nOS_FlagWait (some fl) opt wanted resNull resOld tout ctx waitErr
        waitR = (NOS_E_ISR, some fl, resOld)) ∧
    (∀ fl opt wanted resNull resOld waitErr waitR, ctx.isrNesting = 0 →
      ctx.lockNesting > 0 →
      nOS_FlagWait (some fl) opt wanted resNull resOld tout ctx waitErr
        waitR = (NOS_E_LOCKED, some fl, resOld)) ∧
    (∀ fl opt wanted resNull resOld waitErr waitR, ctx.isrNesting = 0 →
      ctx.lockNesting = 0 → ctx.runningIsIdle = true → tout > 0 →
      nOS_FlagWait (some fl) opt wanted resNull resOld tout ctx waitErr
        waitR = (NOS_E_IDLE, some fl, resOld)) ∧
    (∀ fl opt wanted resOld waitErr waitR, ctx.isrNesting = 0 →
      ctx.lockNesting = 0 → ctx.runningIsIdle = true → tout = 0 →
      flagTestResult fl.flags wanted opt.waitAll = 0 →
      nOS_FlagWait (some fl) opt wanted false resOld tout ctx waitErr
        waitR = (NOS_E_AGAIN, some fl, resOld)) := by
  refine ⟨fun _ _ => rfl, ?_, ?_, ?_, ?_, fun _ _ _ _ _ _ => rfl,
    ?_, ?_, ?_, ?_⟩
  · intro sem caller waitErr h1
    simp only [nOS_SemTake]
    rw [if_pos h1]
  · intro sem caller waitErr h1 h2
    simp only [nOS_SemTake]
    rw [if_neg (by omega : ¬ctx.isrNesting > 0), if_pos h2]
  · intro sem caller waitErr h1 h2 h3 h4
    simp only [nOS_SemTake]
    rw [if_neg (by omega : ¬ctx.isrNesting > 0),
        if_neg (by omega : ¬ctx.lockNesting > 0), if_pos ⟨h3, h4⟩]
  · intro sem caller waitErr h1 h2 h3 h4 h5
    simp only [nOS_SemTake]
    rw [if_neg (by omega : ¬ctx.isrNesting > 0),
        if_neg (by omega : ¬ctx.lockNesting > 0),
        if_neg (by omega : ¬(ctx.runningIsIdle = true ∧ tout > 0)),
        if_pos h5]
  · intro fl opt wanted resNull resOld waitErr waitR h1
    simp only [nOS_FlagWait]
    rw [if_pos h1]
  · intro fl opt wanted resNull resOld waitErr waitR h1 h2
    simp only [nOS_FlagWait]
    rw [if_neg (by omega : ¬ctx.isrNesting > 0), if_pos h2]
  · intro fl opt wanted resNull resOld waitErr waitR h1 h2 h3 h4
    simp only [nOS_FlagWait]
    rw [if_neg (by omega : ¬ctx.isrNesting > 0),
        if_neg (by omega : ¬ctx.lockNesting > 0), if_pos ⟨h3, h4⟩]
  · intro fl opt wanted resOld waitErr waitR h1 h2 h3 h4 h5
    simp only [nOS_FlagWait]
    rw [if_neg (by omega : ¬ctx.isrNesting > 0),
        if_neg (by omega : ¬ctx.lockNesting > 0),
        if_neg (by omega : ¬(ctx.runningIsIdle = true ∧ tout > 0)),
        if_neg (by simpa using h5), if_neg (by omega : ¬tout > 0)]

/-- Witness for C8: with both ISR and lock nesting positive the ISR error
wins; with the scheduler locked and the idle thread blocking the locked
error wins; the idle thread with `tout = 0` passes the idle check and
takes the semaphore. -/
theorem legality_checks_witness :
    nOS_SemTake (some ⟨1, 1, []⟩) 5 ⟨1, 1, true, 0⟩ ⟨4, .waiting⟩ NOS_OK =
      (NOS_E_ISR, some ⟨1, 1, []⟩) ∧
    nOS_SemTake (some ⟨1, 1, []⟩) 5 ⟨0, 2, true, 0⟩ ⟨4, .waiting⟩ NOS_OK =
      (NOS_E_LOCKED, some ⟨1, 1, []⟩) ∧
    nOS_SemTake (some ⟨1, 1, []⟩) 5 ⟨0, 0, true, 0⟩ ⟨4, .waiting⟩ NOS_OK =
      (NOS_E_IDLE, some ⟨1, 1, []⟩) ∧
    nOS_SemTake (some ⟨1, 1, []⟩) 0 ⟨0, 0, true, 0⟩ ⟨4, .waiting⟩ NOS_OK =
      (NOS_OK, some ⟨0, 1, []⟩) ∧
    nOS_FlagWait (some ⟨1, []⟩) ⟨false, false⟩ 2 false 9 5 ⟨0, 0, true, 0⟩
        NOS_OK 0 = (NOS_E_IDLE, some ⟨1, []⟩, 9) ∧
    nOS_FlagWait (some ⟨1, []⟩) ⟨false, false⟩ 2 false 9 0 ⟨0, 0, true, 0⟩
        NOS_OK 0 = (NOS_E_AGAIN, some ⟨1, []⟩, 9) := by
  have h5 := legality_checks ⟨1, 1, true, 0⟩ 5
  have h5b := legality_checks ⟨0, 2, true, 0⟩ 5
  have h5c := legality_checks ⟨0, 0, true, 0⟩ 5
  have h0 := legality_checks ⟨0, 0, true, 0⟩ 0
  refine ⟨h5.2.1 ⟨1, 1, []⟩ ⟨4, .waiting⟩ NOS_OK (by decide),
    h5b.2.2.1 ⟨1, 1, []⟩ ⟨4, .waiting⟩ NOS_OK rfl (by decide),
    h5c.2.2.2.1 ⟨1, 1, []⟩ ⟨4, .waiting⟩ NOS_OK rfl rfl rfl (by decide),
    h0.2.2.2.2.1 ⟨1, 1, []⟩ ⟨4, .waiting⟩ NOS_OK rfl rfl rfl rfl
      (by decide),
    h5c.2.2.2.2.2.2.2.2.1 ⟨1, []⟩ ⟨false, false⟩ 2 false 9 NOS_OK 0 rfl rfl
      rfl (by decide),
    h0.2.2.2.2.2.2.2.2.2 ⟨1, []⟩ ⟨false, false⟩ 2 9 NOS_OK 0 rfl rfl rfl
      rfl (by decide)⟩

/-- C9: for a null flag-group pointer `nOS_FlagCreate` returns
`NOS_E_FULL` (flag.c line 68) — not the invalid-pointer code `NOS_E_NULL`
that its own documentation block (flag.c line 55) promises and that
`nOS_SemCreate` returns for a null semaphore pointer; a valid reference
initializes the bitmask and succeeds. -/
theorem flagCreate_null_code :
    nOS_FlagCreate true 5 = (NOS_E_FULL, none) ∧
    nOS_FlagCreate false 5 = (NOS_OK, some ⟨5, []⟩) ∧
    nOS_SemCreate true 1 2 = (NOS_E_NULL, none) ∧
    NOS_E_FULL ≠ NOS_E_NULL := by decide

/-- C10: `nOS_FlagWait` writes through its result pointer only when it
returns success: on every error return the caller's result variable is
unchanged; a null result pointer is accepted — the awoken bitmask is
discarded and the call still succeeds when the condition is met. -/
theorem flagWait_res_write :
    (∀ flagRef opt wanted resNull resOld tout ctx waitErr waitR,
      (nOS_FlagWait flagRef opt wanted resNull resOld tout ctx waitErr
          waitR).1 ≠ NOS_OK →
      (nOS_FlagWait flagRef opt wanted resNull resOld tout ctx waitErr
          waitR).2.2 = resOld) ∧
    (∀ flagRef opt wanted resOld tout ctx waitErr waitR,
      (nOS_FlagWait flagRef opt wanted true resOld tout ctx waitErr
          waitR).2.2 = resOld) ∧
    (∀ fl opt wanted resOld tout ctx waitErr waitR,
      ctx.isrNesting = 0 → ctx.lockNesting = 0 →
      ¬(ctx.runningIsIdle = true ∧ tout > 0) →
      flagTestResult fl.flags wanted opt.waitAll ≠ 0 →
      (nOS_FlagWait (some fl) opt wanted true resOld tout ctx waitErr
          waitR).1 = NOS_OK) := by
  refine ⟨?_, ?_, ?_⟩
  · intro flagRef opt wanted resNull resOld tout ctx waitErr waitR hne
    match flagRef with
    | none => rfl
    | some fl =>
      simp only [nOS_FlagWait] at hne ⊢
      by_cases h1 : ctx.isrNesting > 0
      · rw [if_pos h1]
      rw [if_neg h1] at hne ⊢
      by_cases h2 : ctx.lockNesting > 0
      · rw [if_pos h2]
      rw [if_neg h2] at hne ⊢
      by_cases h3 : ctx.runningIsIdle = true ∧ tout > 0
      · rw [if_pos h3]
      rw [if_neg h3] at hne ⊢
      by_cases h4 : flagTestResult fl.flags wanted opt.waitAll ≠ 0
      · rw [if_pos h4] at hne
        exact absurd rfl hne
      rw [if_neg h4] at hne ⊢
      by_cases h5 : tout > 0
      · rw [if_pos h5] at hne ⊢
        have hw : ¬waitErr = NOS_OK := by simpa using hne
        simp [hw]
      rw [if_neg h5]
  · intro flagRef opt wanted resOld tout ctx waitErr waitR
    match flagRef with
    | none => rfl
    | some fl =>
      simp only [nOS_FlagWait]
      by_cases h1 : ctx.isrNesting > 0
      · rw [if_pos h1]
      rw [if_neg h1]
      by_cases h2 : ctx.lockNesting > 0
      · rw [if_pos h2]
      rw [if_neg h2]
      by_cases h3 : ctx.runningIsIdle = true ∧ tout > 0
      · rw [if_pos h3]
      rw [if_neg h3]
      by_cases h4 : flagTestResult fl.flags wanted opt.waitAll ≠ 0
      · rw [if_pos h4]
        simp
      rw [if_neg h4]
      by_cases h5 : tout > 0
      · rw [if_pos h5]
        simp
      rw [if_neg h5]
  · intro fl opt wanted resOld tout ctx waitErr waitR hisr hlock hidle hr
    simp only [nOS_FlagWait]
    rw [if_neg (by omega : ¬ctx.isrNesting > 0),
        if_neg (by omega : ¬ctx.lockNesting > 0), if_neg hidle, if_pos hr]

/-- Witness for C10: a would-block error leaves the result variable at 9;
a null result pointer still yields success on a met condition while the
variable keeps its old value. -/
theorem flagWait_res_write_witness :
    (nOS_FlagWait (some ⟨1, []⟩) ⟨false, false⟩ 2 false 9 0
        ⟨0, 0, false, 2⟩ NOS_OK 0).2.2 = 9 ∧
    (nOS_FlagWait (some ⟨1, []⟩) ⟨false, false⟩ 1 true 9 0
        ⟨0, 0, false, 2⟩ NOS_OK 0).2.2 = 9 ∧
    (nOS_FlagWait (some ⟨1, []⟩) ⟨false, false⟩ 1 true 9 0
        ⟨0, 0, false, 2⟩ NOS_OK 0).1 = NOS_OK := by
  refine ⟨flagWait_res_write.1 (some ⟨1, []⟩) ⟨false, false⟩ 2 false 9 0
      ⟨0, 0, false, 2⟩ NOS_OK 0 (by decide),
    flagWait_res_write.2.1 (some ⟨1, []⟩) ⟨false, false⟩ 1 9 0
      ⟨0, 0, false, 2⟩ NOS_OK 0,
    flagWait_res_write.2.2 ⟨1, []⟩ ⟨false, false⟩ 1 9 0 ⟨0, 0, false, 2⟩
      NOS_OK 0 rfl rfl (by decide) (by decide)⟩
